import Mathlib

/-!
Verification of `Assessment-2/submission.py` and
`Assessment-2/autograder-assessment-2.py` (context managers, decorators,
retry wrappers and the grading harness), via a shallow embedding in Lean.

Machine floats (`time.perf_counter` readings, backoff durations, the score)
are embedded as rationals; environments as `String → Option String`; a
sqlite connection as committed rows plus a pending (uncommitted) write list;
a Python callable under retry as a map from the 1-based attempt number to
the outcome of that invocation.
-/

namespace Assessment2

/-- Outcome of one invocation of a Python callable, as seen by the retry
wrappers: a normal return, a `sqlite3.OperationalError` (the transient
category), or any other exception. -/
inductive Outcome (α : Type) where
  | ok (v : α)
  | opErr (msg : String)
  | exn (msg : String)
  deriving DecidableEq, Repr

/-- Result of running a retry-wrapped callable: the returned value or the
propagated exception, together with the total number of invocations made and
the list of backoff sleeps performed (in order). -/
inductive RunResult (α : Type) where
  | value (v : α) (calls : Nat) (sleeps : List ℚ)
  | opRaised (msg : String) (calls : Nat) (sleeps : List ℚ)
  | exnRaised (msg : String) (calls : Nat) (sleeps : List ℚ)
  deriving DecidableEq, Repr

/-- Number of invocations of the wrapped callable recorded in a result. -/
def RunResult.calls : RunResult α → Nat
  | .value _ c _ => c
  | .opRaised _ c _ => c
  | .exnRaised _ c _ => c

/-- Backoff sleeps recorded in a result. -/
def RunResult.sleeps : RunResult α → List ℚ
  | .value _ _ s => s
  | .opRaised _ _ s => s
  | .exnRaised _ _ s => s

/-- The returned value, when the run returned normally. -/
def RunResult.valueOf : RunResult α → Option α
  | .value v _ _ => some v
  | _ => none

/-- True when the run re-raised the transient `sqlite3.OperationalError`. -/
def RunResult.isOpRaised : RunResult α → Bool
  | .opRaised _ _ _ => true
  | _ => false

/-- The message of the propagated non-transient exception, if any. -/
def RunResult.exnMsg : RunResult α → Option String
  | .exnRaised m _ _ => some m
  | _ => none

/-- The `while True` loop of `retry_on_operational_error._wrapped`
(submission.py lines 266-280).  `attempt` is the Python `attempt` counter
value for the current iteration (1-based); `rem` maintains the invariant
`rem = (retries - attempt).toNat`, so `rem = 0` exactly when the Python
guard `attempt >= retries` holds.  On a transient error with attempts left
it sleeps `backoff * 2^(attempt-1)` plus, when `jitter` is set, a draw
`rand attempt` from `random.uniform(0, backoff)`, then loops. -/
def retryGo (f : Nat → Outcome α) (backoff : ℚ) (jitter : Bool) (rand : Nat → ℚ) :
    Nat → Nat → List ℚ → RunResult α
  | rem, attempt, sleeps =>
    match f attempt with
    | .ok v => .value v attempt sleeps
    | .exn m => .exnRaised m attempt sleeps
    | .opErr m =>
      match rem with
      | 0 => .opRaised m attempt sleeps
      | rem' + 1 =>
          retryGo f backoff jitter rand rem' (attempt + 1)
            (sleeps ++ [backoff * 2 ^ (attempt - 1) + (if jitter then rand attempt else 0)])

/-- `retry_on_operational_error(retries=..., backoff=..., jitter=...)`
applied to a callable (submission.py lines 257-284).  `retries` is the total
attempt budget (a Python int, possibly non-positive); the wrapped callable
is `f`, mapping the attempt number to that invocation's outcome; `rand`
supplies the jitter draws. -/
def retry_on_operational_error (retries : Int) (backoff : ℚ) (jitter : Bool)
    (rand : Nat → ℚ) (f : Nat → Outcome α) : RunResult α :=
  retryGo f backoff jitter rand (retries - 1).toNat 1 []

/-- Unfolding lemma for `retryGo`. -/
theorem retryGo_eq (f : Nat → Outcome α) (backoff : ℚ) (jitter : Bool) (rand : Nat → ℚ)
    (rem attempt : Nat) (sleeps : List ℚ) :
    retryGo f backoff jitter rand rem attempt sleeps =
      match f attempt with
      | .ok v => .value v attempt sleeps
      | .exn m => .exnRaised m attempt sleeps
      | .opErr m =>
        match rem with
        | 0 => .opRaised m attempt sleeps
        | rem' + 1 =>
            retryGo f backoff jitter rand rem' (attempt + 1)
              (sleeps ++ [backoff * 2 ^ (attempt - 1) + (if jitter then rand attempt else 0)]) := by
  rw [retryGo]

/-- If the callable answers `opErr` on attempts `attempt, …, attempt+k-1`
and `ok v` on attempt `attempt+k`, and at least `k` further attempts remain,
the loop returns `v` after attempt `attempt + k`. -/
theorem retryGo_success (f : Nat → Outcome α) (backoff : ℚ) (jitter : Bool)
    (rand : Nat → ℚ) (v : α) :
    ∀ (k rem attempt : Nat) (sleeps : List ℚ),
      (∀ j, j < k → ∃ m, f (attempt + j) = .opErr m) →
      f (attempt + k) = .ok v → k ≤ rem →
      (retryGo f backoff jitter rand rem attempt sleeps).valueOf = some v ∧
      (retryGo f backoff jitter rand rem attempt sleeps).calls = attempt + k := by
  intro k
  induction k with
  | zero =>
    intro rem attempt sleeps _ hok _
    rw [retryGo_eq]
    simp only [Nat.add_zero] at hok
    rw [hok]
    exact ⟨rfl, rfl⟩
  | succ k ih =>
    intro rem attempt sleeps hfail hok hle
    obtain ⟨m, hm⟩ := hfail 0 (Nat.succ_pos k)
    simp only [Nat.add_zero] at hm
    obtain ⟨rem', rfl⟩ : ∃ rem', rem = rem' + 1 := by
      cases rem with
      | zero => exact absurd hle (by omega)
      | succ r => exact ⟨r, rfl⟩
    rw [retryGo_eq, hm]
    have hfail' : ∀ j, j < k → ∃ m', f (attempt + 1 + j) = .opErr m' := by
      intro j hj
      have := hfail (j + 1) (by omega)
      simpa [Nat.add_assoc, Nat.add_comm 1 j] using this
    have hok' : f (attempt + 1 + k) = .ok v := by
      simpa [Nat.add_assoc, Nat.add_comm 1 k] using hok
    have := ih rem' (attempt + 1)
      (sleeps ++ [backoff * 2 ^ (attempt - 1) + (if jitter then rand attempt else 0)])
      hfail' hok' (by omega)
    refine ⟨this.1, ?_⟩
    rw [this.2]
    omega

/-- If the callable answers `opErr` on every attempt `attempt, …,
attempt+rem`, the loop exhausts its budget and re-raises the transient error
after attempt `attempt + rem`. -/
theorem retryGo_exhaust (f : Nat → Outcome α) (backoff : ℚ) (jitter : Bool)
    (rand : Nat → ℚ) :
    ∀ (rem attempt : Nat) (sleeps : List ℚ),
      (∀ j, j ≤ rem → ∃ m, f (attempt + j) = .opErr m) →
      (retryGo f backoff jitter rand rem attempt sleeps).isOpRaised = true ∧
      (retryGo f backoff jitter rand rem attempt sleeps).calls = attempt + rem := by
  intro rem
  induction rem with
  | zero =>
    intro attempt sleeps hfail
    obtain ⟨m, hm⟩ := hfail 0 (Nat.le_refl 0)
    simp only [Nat.add_zero] at hm
    rw [retryGo_eq, hm]
    exact ⟨rfl, rfl⟩
  | succ rem' ih =>
    intro attempt sleeps hfail
    obtain ⟨m, hm⟩ := hfail 0 (Nat.zero_le _)
    simp only [Nat.add_zero] at hm
    rw [retryGo_eq, hm]
    have hfail' : ∀ j, j ≤ rem' → ∃ m', f (attempt + 1 + j) = .opErr m' := by
      intro j hj
      have := hfail (j + 1) (by omega)
      simpa [Nat.add_assoc, Nat.add_comm 1 j] using this
    have := ih (attempt + 1)
      (sleeps ++ [backoff * 2 ^ (attempt - 1) + (if jitter then rand attempt else 0)])
      hfail'
    refine ⟨this.1, ?_⟩
    rw [this.2]
    omega

/-- The loop always makes at least `attempt` invocations (the current one
happens unconditionally). -/
theorem retryGo_calls_ge (f : Nat → Outcome α) (backoff : ℚ) (jitter : Bool)
    (rand : Nat → ℚ) :
    ∀ (rem attempt : Nat) (sleeps : List ℚ),
      attempt ≤ (retryGo f backoff jitter rand rem attempt sleeps).calls := by
  intro rem
  induction rem with
  | zero =>
    intro attempt sleeps
    rw [retryGo_eq]
    cases f attempt <;> simp [RunResult.calls]
  | succ rem' ih =>
    intro attempt sleeps
    rw [retryGo_eq]
    cases f attempt with
    | ok v => simp [RunResult.calls]
    | exn m => simp [RunResult.calls]
    | opErr m =>
      have := ih (attempt + 1)
        (sleeps ++ [backoff * 2 ^ (attempt - 1) + (if jitter then rand attempt else 0)])
      exact Nat.le_trans (Nat.le_succ attempt) this

/-- If the callable answers `opErr` on attempts `attempt, …, attempt+k-1`
and a non-transient exception on attempt `attempt+k`, and at least `k`
further attempts remain, the loop propagates that exception immediately
after attempt `attempt + k`. -/
theorem retryGo_exn (f : Nat → Outcome α) (backoff : ℚ) (jitter : Bool)
    (rand : Nat → ℚ) (m : String) :
    ∀ (k rem attempt : Nat) (sleeps : List ℚ),
      (∀ j, j < k → ∃ m', f (attempt + j) = .opErr m') →
      f (attempt + k) = .exn m → k ≤ rem →
      (retryGo f backoff jitter rand rem attempt sleeps).exnMsg = some m ∧
      (retryGo f backoff jitter rand rem attempt sleeps).calls = attempt + k := by
  intro k
  induction k with
  | zero =>
    intro rem attempt sleeps _ hexn _
    rw [retryGo_eq]
    simp only [Nat.add_zero] at hexn
    rw [hexn]
    exact ⟨rfl, rfl⟩
  | succ k ih =>
    intro rem attempt sleeps hfail hexn hle
    obtain ⟨m', hm'⟩ := hfail 0 (Nat.succ_pos k)
    simp only [Nat.add_zero] at hm'
    obtain ⟨rem', rfl⟩ : ∃ rem', rem = rem' + 1 := by
      cases rem with
      | zero => exact absurd hle (by omega)
      | succ r => exact ⟨r, rfl⟩
    rw [retryGo_eq, hm']
    have hfail' : ∀ j, j < k → ∃ m'', f (attempt + 1 + j) = .opErr m'' := by
      intro j hj
      have := hfail (j + 1) (by omega)
      simpa [Nat.add_assoc, Nat.add_comm 1 j] using this
    have hexn' : f (attempt + 1 + k) = .exn m := by
      simpa [Nat.add_assoc, Nat.add_comm 1 k] using hexn
    have := ih rem' (attempt + 1)
      (sleeps ++ [backoff * 2 ^ (attempt - 1) + (if jitter then rand attempt else 0)])
      hfail' hexn' (by omega)
    refine ⟨this.1, ?_⟩
    rw [this.2]
    omega

/-- C1: for a callable that raises `sqlite3.OperationalError` exactly `k`
times and then succeeds, `retry_on_operational_error` with total attempt
budget `retries ≥ k+1` returns the success value after exactly `k+1`
invocations, and with `retries = k` (for `k ≥ 1`) re-raises the transient
error after exactly `k` invocations. -/
theorem retry_on_operational_error_spec (retries : Int) (backoff : ℚ) (jitter : Bool)
    (rand : Nat → ℚ) (f : Nat → Outcome α) (v : α) (k : Nat)
    (hfail : ∀ i, 1 ≤ i → i ≤ k → ∃ m, f i = .opErr m)
    (hok : f (k + 1) = .ok v) :
    ((k : Int) + 1 ≤ retries →
      (retry_on_operational_error retries backoff jitter rand f).valueOf = some v ∧
      (retry_on_operational_error retries backoff jitter rand f).calls = k + 1) ∧
    (retries = (k : Int) → 1 ≤ k →
      (retry_on_operational_error retries backoff jitter rand f).isOpRaised = true ∧
      (retry_on_operational_error retries backoff jitter rand f).calls = k) := by
  constructor
  · intro hret
    have hfail' : ∀ j, j < k → ∃ m, f (1 + j) = .opErr m := by
      intro j hj
      exact hfail (1 + j) (by omega) (by omega)
    have hok' : f (1 + k) = .ok v := by rwa [Nat.add_comm 1 k]
    have hle : k ≤ (retries - 1).toNat := by omega
    have h := retryGo_success f backoff jitter rand v k (retries - 1).toNat 1 [] hfail' hok' hle
    unfold retry_on_operational_error
    exact ⟨h.1, by rw [h.2]; omega⟩
  · intro hret hk
    have hfail' : ∀ j, j ≤ k - 1 → ∃ m, f (1 + j) = .opErr m := by
      intro j hj
      exact hfail (1 + j) (by omega) (by omega)
    have hrem : (retries - 1).toNat = k - 1 := by omega
    have h := retryGo_exhaust f backoff jitter rand (k - 1) 1 [] hfail'
    unfold retry_on_operational_error
    rw [hrem]
    exact ⟨h.1, by rw [h.2]; omega⟩

/-- C1 witness: the autograder's `test_10` scenario — a callable failing
twice with the transient error then returning 42, retried with
`retries = 3` — returns 42 after exactly 3 invocations. -/
theorem retry_on_operational_error_spec_witness :
    (retry_on_operational_error 3 (1/1000) false (fun _ => 0)
      (fun n => if n < 3 then Outcome.opErr "database is locked"
                else Outcome.ok (42 : Nat))).valueOf = some 42 ∧
    (retry_on_operational_error 3 (1/1000) false (fun _ => 0)
      (fun n => if n < 3 then Outcome.opErr "database is locked"
                else Outcome.ok (42 : Nat))).calls = 3 := by
  have h := (retry_on_operational_error_spec 3 (1/1000) false (fun _ => 0)
      (fun n => if n < 3 then Outcome.opErr "database is locked"
                else Outcome.ok (42 : Nat)) 42 2
      (by
        intro i h1 h2
        refine ⟨"database is locked", ?_⟩
        have : i < 3 := by omega
        simp [this])
      (by norm_num)).1 (by norm_num)
  exact h

/-- C10: `retry_on_operational_error` always invokes the callable at least
once, for every `retries` (including zero and negative); with
`retries ≤ 0` a transient error on the first invocation is re-raised
immediately with no backoff sleep; and a non-transient exception on any
reached attempt — the first attempt, reached for every `retries`
whatsoever, or a later attempt `i ≤ retries` — propagates immediately
with no further invocations. -/
theorem retry_on_operational_error_edge_spec (retries : Int) (backoff : ℚ)
    (jitter : Bool) (rand : Nat → ℚ) (f : Nat → Outcome α) :
    (1 ≤ (retry_on_operational_error retries backoff jitter rand f).calls) ∧
    (retries ≤ 0 → ∀ m, f 1 = .opErr m →
      retry_on_operational_error retries backoff jitter rand f = .opRaised m 1 []) ∧
    (∀ (i : Nat) (m : String), 1 ≤ i → (i = 1 ∨ (i : Int) ≤ retries) →
      (∀ j, 1 ≤ j → j < i → ∃ m', f j = .opErr m') →
      f i = .exn m →
      (retry_on_operational_error retries backoff jitter rand f).exnMsg = some m ∧
      (retry_on_operational_error retries backoff jitter rand f).calls = i) := by
  refine ⟨?_, ?_, ?_⟩
  · exact retryGo_calls_ge f backoff jitter rand (retries - 1).toNat 1 []
  · intro hret m hm
    have hrem : (retries - 1).toNat = 0 := by omega
    unfold retry_on_operational_error
    rw [hrem, retryGo_eq, hm]
  · intro i m hi hiret hfail hexn
    have hfail' : ∀ j, j < i - 1 → ∃ m', f (1 + j) = .opErr m' := by
      intro j hj
      exact hfail (1 + j) (by omega) (by omega)
    have hexn' : f (1 + (i - 1)) = .exn m := by
      have : 1 + (i - 1) = i := by omega
      rwa [this]
    have hle : i - 1 ≤ (retries - 1).toNat := by omega
    have h := retryGo_exn f backoff jitter rand m (i - 1) (retries - 1).toNat 1 [] hfail' hexn' hle
    unfold retry_on_operational_error
    exact ⟨h.1, by rw [h.2]; omega⟩

/-- C10 witness: with `retries = 0` a first-attempt transient error is
re-raised at once with no sleeps; with `retries = 0` a first-attempt
non-transient exception propagates after exactly 1 invocation; and with
`retries = 2` a non-transient exception on attempt 2 (after one transient
failure) propagates after exactly 2 invocations. -/
theorem retry_on_operational_error_edge_spec_witness :
    retry_on_operational_error 0 (1/100) false (fun _ => 0)
      (fun _ => Outcome.opErr (α := Nat) "database is locked") =
      RunResult.opRaised "database is locked" 1 [] ∧
    (retry_on_operational_error 0 (1/100) false (fun _ => 0)
      (fun _ => Outcome.exn (α := Nat) "boom")).exnMsg = some "boom" ∧
    (retry_on_operational_error 0 (1/100) false (fun _ => 0)
      (fun _ => Outcome.exn (α := Nat) "boom")).calls = 1 ∧
    (retry_on_operational_error 2 (1/100) false (fun _ => 0)
      (fun n => if n = 1 then Outcome.opErr (α := Nat) "database is locked"
                else Outcome.exn "boom")).exnMsg = some "boom" ∧
    (retry_on_operational_error 2 (1/100) false (fun _ => 0)
      (fun n => if n = 1 then Outcome.opErr (α := Nat) "database is locked"
                else Outcome.exn "boom")).calls = 2 := by
  have ha := (retry_on_operational_error_edge_spec 0 (1/100) false (fun _ => 0)
      (fun _ => Outcome.opErr (α := Nat) "database is locked")).2.1 (by norm_num)
      "database is locked" rfl
  have hb := (retry_on_operational_error_edge_spec 0 (1/100) false (fun _ => 0)
      (fun _ => Outcome.exn (α := Nat) "boom")).2.2 1 "boom" (by norm_num) (Or.inl rfl)
      (by intro j h1 h2; exact absurd h2 (by omega)) rfl
  have hc := (retry_on_operational_error_edge_spec 2 (1/100) false (fun _ => 0)
      (fun n => if n = 1 then Outcome.opErr (α := Nat) "database is locked"
                else Outcome.exn "boom")).2.2 2 "boom" (by norm_num)
      (Or.inr (by norm_num))
      (by
        intro j h1 h2
        refine ⟨"database is locked", ?_⟩
        have : j = 1 := by omega
        simp [this])
      (by norm_num)
  exact ⟨ha, hb.1, hb.2, hc.1, hc.2⟩

/-- A sqlite connection, embedded as the rows already committed plus the
pending writes of the open transaction (visible rows are the committed
ones). -/
structure Conn (ρ : Type) where
  committed : List ρ
  pending : List ρ
  deriving DecidableEq, Repr

/-- `conn.commit()`: the pending writes become committed. -/
def Conn.commit (c : Conn ρ) : Conn ρ := ⟨c.committed ++ c.pending, []⟩

/-- `conn.rollback()`: the pending writes are discarded. -/
def Conn.rollback (c : Conn ρ) : Conn ρ := ⟨c.committed, []⟩

/-- `autocommit_sqlite` (submission.py lines 235-249).  The wrapped callable
receives the connection, performs some writes `ws` (appended to the pending
transaction), and either returns a value or raises; the wrapper then commits
on normal return and rolls back (then re-raises the original exception) on
any exception.  The embedding returns the post-call connection together with
the wrapper's outcome. -/
def autocommit_sqlite (f : Conn ρ → List ρ × Except String α) (conn : Conn ρ) :
    Conn ρ × Except String α :=
  let ws := (f conn).1
  let conn1 : Conn ρ := ⟨conn.committed, conn.pending ++ ws⟩
  match (f conn).2 with
  | .ok v => (conn1.commit, .ok v)
  | .error e => (conn1.rollback, .error e)

/-- C2: `autocommit_sqlite` commits after a normal return and passes the
return value through; on an exception it rolls back — the committed rows
are exactly those committed before the call, so none of the callable's
writes are visible — and re-raises the original exception unchanged. -/
theorem autocommit_sqlite_spec (f : Conn ρ → List ρ × Except String α)
    (conn : Conn ρ) :
    (∀ ws v, f conn = (ws, .ok v) →
      autocommit_sqlite f conn =
        (⟨conn.committed ++ conn.pending ++ ws, []⟩, .ok v)) ∧
    (∀ ws e, f conn = (ws, .error e) →
      autocommit_sqlite f conn = (⟨conn.committed, []⟩, .error e) ∧
      (autocommit_sqlite f conn).1.committed = conn.committed) := by
  constructor
  · intro ws v hf
    unfold autocommit_sqlite
    rw [hf]
    simp [Conn.commit, List.append_assoc]
  · intro ws e hf
    unfold autocommit_sqlite
    rw [hf]
    simp [Conn.rollback]

/-- C2 witness: the autograder's `test_09` scenario — a callable inserting
"carol" then returning `true` commits the row, and one inserting "dave"
then raising leaves the committed rows unchanged and re-raises. -/
theorem autocommit_sqlite_spec_witness :
    autocommit_sqlite (fun _ => (["carol"], Except.ok true))
      (⟨["alice", "bob"], []⟩ : Conn String) =
      (⟨["alice", "bob", "carol"], []⟩, Except.ok true) ∧
    autocommit_sqlite (fun _ => (["dave"], Except.error (α := Bool) "fail after insert"))
      (⟨["alice", "bob"], []⟩ : Conn String) =
      (⟨["alice", "bob"], []⟩, Except.error "fail after insert") := by
  constructor
  · have h := (autocommit_sqlite_spec (fun _ => (["carol"], Except.ok true))
      (⟨["alice", "bob"], []⟩ : Conn String)).1 ["carol"] true rfl
    simpa using h
  · have h := (autocommit_sqlite_spec
      (fun _ => (["dave"], Except.error (α := Bool) "fail after insert"))
      (⟨["alice", "bob"], []⟩ : Conn String)).2 ["dave"] "fail after insert" rfl
    exact h.1

/-- A process environment: `os.environ` as a partial map from variable
names to string values (`none` = unset). -/
def Env : Type := String → Option String

/-- `os.environ[name] = v`. -/
def setVar (env : Env) (name v : String) : Env :=
  fun n => if n = name then some v else env n

/-- `os.environ.pop(name, None)`. -/
def unsetVar (env : Env) (name : String) : Env :=
  fun n => if n = name then none else env n

/-- The `TempEnviron` context manager (submission.py lines 72-93): variable
name, override value (`none` embeds Python `None`, meaning "temporarily
unset"), and the state saved by `__enter__` (`_prev`, `_had_prev`). -/
structure TempEnviron where
  var : String
  value : Option String
  prev : Option String
  hadPrev : Bool

/-- `TempEnviron.__init__(var, value)`: `_prev = None`, `_had_prev = False`. -/
def TempEnviron.init (var : String) (value : Option String) : TempEnviron :=
  ⟨var, value, none, false⟩

/-- `TempEnviron.__enter__`: saves `os.environ.get(var)` and
`var in os.environ`, then pops the variable (when `value is None`) or
sets it to `value`.  Returns the updated manager state and the new
environment. -/
def TempEnviron.enter (t : TempEnviron) (env : Env) : TempEnviron × Env :=
  let t' : TempEnviron := ⟨t.var, t.value, env t.var, (env t.var).isSome⟩
  match t.value with
  | none => (t', unsetVar env t.var)
  | some v => (t', setVar env t.var v)

/-- `TempEnviron.__exit__(exc_type, exc, tb)`: restores
`os.environ[var] = _prev` when `_had_prev`, else pops the variable.  The
exception information `exc` is ignored (the manager never suppresses and
restores identically on both exit paths).  `__enter__` guarantees
`hadPrev → prev.isSome`, so the `getD ""` default is never read on states
it produces. -/
def TempEnviron.exit (t : TempEnviron) (_exc : Option String) (env : Env) : Env :=
  if t.hadPrev then setVar env t.var (t.prev.getD "")
  else unsetVar env t.var

/-- C3: after `TempEnviron(var, value)` exits — normally or by exception,
and whatever the scope's body did to the environment — the variable's state
is exactly its state before entry: unset stays unset (not empty string),
and a prior value `V0` is restored exactly. -/
theorem tempEnviron_restores (var : String) (value : Option String) (env0 : Env)
    (envBody : Env) (exc : Option String) :
    (((TempEnviron.init var value).enter env0).1.exit exc envBody) var = env0 var := by
  unfold TempEnviron.init TempEnviron.enter TempEnviron.exit
  cases hv : env0 var with
  | none =>
    cases value <;> simp [hv, unsetVar]
  | some v0 =>
    cases value <;> simp [hv, setVar]

/-- C9: `TempEnviron(var, None)` means "temporarily unset": during the
scope the variable is unset, and on exit the prior state (set or unset) is
restored exactly. -/
theorem tempEnviron_none_unsets (var : String) (env0 : Env) (envBody : Env)
    (exc : Option String) :
    (((TempEnviron.init var none).enter env0).2 var = none) ∧
    ((((TempEnviron.init var none).enter env0).1.exit exc envBody) var = env0 var) := by
  constructor
  · unfold TempEnviron.init TempEnviron.enter
    simp [unsetVar]
  · exact tempEnviron_restores var none env0 envBody exc

/-- Python's `x or y` on an optional float `x`: `y` when `x` is `None` or
zero (falsy), else `x`. -/
def pyOrFloat (x : Option ℚ) (y : ℚ) : ℚ :=
  match x with
  | some v => if v = 0 then y else v
  | none => y

/-- The `Timer` context manager (submission.py lines 131-143): `start` is
`None` until `__enter__`, `elapsed` is `0.0` at construction.  Clock
readings (`time.perf_counter`) are embedded as rationals. -/
structure Timer where
  start : Option ℚ
  elapsed : ℚ

/-- `Timer.__init__`: `start = None`, `elapsed = 0.0`. -/
def Timer.init : Timer := ⟨none, 0⟩

/-- `Timer.__enter__`, with `now` the `perf_counter` reading taken there. -/
def Timer.enter (t : Timer) (now : ℚ) : Timer := ⟨some now, t.elapsed⟩

/-- `Timer.__exit__`, with `now` the `perf_counter` reading taken there:
`elapsed = end - (start or end)`. -/
def Timer.exit (t : Timer) (now : ℚ) : Timer :=
  ⟨t.start, now - pyOrFloat t.start now⟩

/-- C8: `Timer.elapsed` is non-positive (zero) before entry; after an
enter at reading `s` and an exit at reading `e` of the monotonic clock
(`perf_counter` readings are positive and strictly increase between the
two calls: `0 < s < e`), `elapsed` equals `e - s` and is strictly
positive. -/
theorem timer_spec (s e : ℚ) (hs : 0 < s) (hse : s < e) :
    Timer.init.elapsed ≤ 0 ∧
    ((Timer.init.enter s).exit e).elapsed = e - s ∧
    0 < ((Timer.init.enter s).exit e).elapsed := by
  refine ⟨le_refl 0, ?_, ?_⟩
  · unfold Timer.init Timer.enter Timer.exit pyOrFloat
    simp [ne_of_gt hs]
  · unfold Timer.init Timer.enter Timer.exit pyOrFloat
    simp only
    rw [if_neg (ne_of_gt hs)]
    linarith

/-- C8 witness: a timer entered at reading 1 and exited at reading 3 has
`elapsed = 2 > 0`, and `elapsed = 0` before entry. -/
theorem timer_spec_witness :
    Timer.init.elapsed ≤ 0 ∧
    ((Timer.init.enter 1).exit 3).elapsed = 3 - 1 ∧
    0 < ((Timer.init.enter 1).exit 3).elapsed :=
  timer_spec 1 3 (by norm_num) (by norm_num)

/-- Python `round(x, 2)`, embedded on ℚ: round `x` to two decimal places.
Mathlib's `round` sends half points up while CPython rounds float ties to
even; the scores `passed * (100.0/total)` the harness feeds to `round`
never hit an exact two-decimal tie in binary floating point, so the two
agree on every value this development evaluates. -/
def pyRound2 (x : ℚ) : ℚ := ((round (x * 100) : ℤ) : ℚ) / 100

/-- The score computation of `main` (autograder-assessment-2.py lines
344-351): `passed = total - failed - errored`,
`per_test = 100.0/total if total else 0.0`,
`score = max(0.0, min(100.0, round(passed * per_test, 2)))`. -/
def autograder_score (total failed errored : Nat) : ℚ :=
  let passed : ℤ := (total : ℤ) - failed - errored
  let perTest : ℚ := if total = 0 then 0 else 100 / (total : ℚ)
  max 0 (min 100 (pyRound2 ((passed : ℚ) * perTest)))

/-- Rounding to two decimals is monotone. -/
theorem pyRound2_mono {x y : ℚ} (h : x ≤ y) : pyRound2 x ≤ pyRound2 y := by
  unfold pyRound2
  have hr : round (x * 100) ≤ round (y * 100) := by
    rw [round_eq, round_eq]
    exact Int.floor_le_floor (by linarith)
  have : ((round (x * 100) : ℤ) : ℚ) ≤ ((round (y * 100) : ℤ) : ℚ) := by
    exact_mod_cast hr
  linarith

/-- C4 counterexample: with the full 11-check battery and one check
passed (10 failed), the emitted score is the two-decimal rounding `9.09`,
which differs from the exact value `100 × 1/11`; the claimed exact
equality `score = 100 × passed/total` fails on the code. -/
theorem autograder_score_counterexample :
    autograder_score 11 10 0 ≠ 100 * ((11 : ℚ) - 10 - 0) / 11 ∧
    autograder_score 11 10 0 = 909 / 100 := by
  have h : autograder_score 11 10 0 = 909 / 100 := by
    unfold autograder_score pyRound2
    norm_num [round_eq]
  refine ⟨?_, h⟩
  rw [h]
  norm_num

/-- C4 (amended): the score equals `100 × passed/total` rounded to two
decimal places and clamped to `[0,100]`, is `0` when `total = 0`, always
lies in `[0,100]`, and is monotonic in the passed count. -/
theorem autograder_score_spec (total failed errored : Nat) :
    (total = 0 → autograder_score total failed errored = 0) ∧
    (total ≠ 0 → autograder_score total failed errored =
      max 0 (min 100 (pyRound2
        (100 * (((total : ℤ) - failed - errored : ℤ) : ℚ) / (total : ℚ))))) ∧
    0 ≤ autograder_score total failed errored ∧
    autograder_score total failed errored ≤ 100 ∧
    (∀ f2 e2 : Nat, (f2 : ℤ) + e2 ≤ (failed : ℤ) + errored →
      autograder_score total failed errored ≤ autograder_score total f2 e2) := by
  refine ⟨?_, ?_, ?_, ?_, ?_⟩
  · intro h0
    unfold autograder_score pyRound2
    simp [h0]
  · intro hne
    unfold autograder_score
    simp only [hne, if_false]
    congr 2
    ring_nf
  · exact le_max_left 0 _
  · exact max_le (by norm_num) (min_le_left 100 _)
  · intro f2 e2 hle
    unfold autograder_score
    have hpt : (0 : ℚ) ≤ (if total = 0 then 0 else 100 / (total : ℚ)) := by
      split
      · exact le_refl 0
      · positivity
    have hp : (((total : ℤ) - failed - errored : ℤ) : ℚ) ≤
        (((total : ℤ) - f2 - e2 : ℤ) : ℚ) := by
      have : (total : ℤ) - failed - errored ≤ (total : ℤ) - f2 - e2 := by omega
      exact_mod_cast this
    have hmul := mul_le_mul_of_nonneg_right hp hpt
    exact max_le_max (le_refl 0) (min_le_min (le_refl 100) (pyRound2_mono hmul))

/-- C4 witness: the amended statement evaluated concretely — the score is
`0` when no checks run, and losing 10 of 11 checks scores no more than
losing none. -/
theorem autograder_score_spec_witness :
    autograder_score 0 0 0 = 0 ∧
    autograder_score 11 10 0 ≤ autograder_score 11 0 0 :=
  ⟨(autograder_score_spec 0 0 0).1 rfl,
   (autograder_score_spec 11 10 0).2.2.2.2 0 0 (by norm_num)⟩

/-- One test outcome delivered to `ScoringTestResult` by the unittest
runner: `addSuccess`, `addFailure` or `addError`, with the test id and (for
the latter two) the formatted exception text. -/
inductive TEvent where
  | success (id : String)
  | failure (id : String) (msg : String)
  | err (id : String) (msg : String)
  deriving DecidableEq, Repr

/-- One record of `ScoringTestResult.details`
(autograder-assessment-2.py lines 317-329): `{"test": …, "status": …,
"message": …}`. -/
structure Detail where
  test : String
  status : String
  message : String
  deriving DecidableEq, Repr

/-- The record appended by `addSuccess` / `addFailure` / `addError`:
statuses are the string literals `"passed"`, `"failed"` and `"error"`
from the source. -/
def detailOf : TEvent → Detail
  | .success i => ⟨i, "passed", ""⟩
  | .failure i m => ⟨i, "failed", m⟩
  | .err i m => ⟨i, "error", m⟩

/-- The `details` list accumulated over a run. -/
def detailsOf (evs : List TEvent) : List Detail := evs.map detailOf

/-- Whether an event is a success. -/
def TEvent.isSuccess : TEvent → Bool
  | .success _ => true
  | _ => false

/-- Whether an event is a failure. -/
def TEvent.isFailure : TEvent → Bool
  | .failure _ _ => true
  | _ => false

/-- Whether an event is an error. -/
def TEvent.isError : TEvent → Bool
  | .err _ _ => true
  | _ => false

/-- `len(result.failures)`. -/
def countFailed (evs : List TEvent) : Nat := evs.countP TEvent.isFailure

/-- `len(result.errors)`. -/
def countErrored (evs : List TEvent) : Nat := evs.countP TEvent.isError

/-- The number of tests that passed. -/
def countPassed (evs : List TEvent) : Nat := evs.countP TEvent.isSuccess

/-- Every test ends in exactly one bucket, so the three counts partition
`testsRun`. -/
theorem counts_partition (evs : List TEvent) :
    countPassed evs + countFailed evs + countErrored evs = evs.length := by
  unfold countPassed countFailed countErrored
  induction evs with
  | nil => rfl
  | cons e t ih =>
    cases e <;>
      simp [List.countP_cons, TEvent.isSuccess, TEvent.isFailure, TEvent.isError] <;>
      omega

/-- CPython's `repr` of the two-decimal non-negative float score, as
interpolated by the summary f-string: an integer part, a dot, and the
fractional digits with any trailing zero dropped (`100.0`, `9.09`,
`9.5`).  Modelled from the spec: the float-to-text conversion applied by
`f"Score: {score}/100 …"` is CPython runtime behaviour, not code of this
repository. -/
def formatScore (q : ℚ) : String :=
  let n : ℤ := ⌊q * 100⌋
  let ip := n / 100
  let fr := n % 100
  if fr = 0 then toString ip ++ ".0"
  else if fr % 10 = 0 then toString ip ++ "." ++ toString (fr / 10)
  else if fr < 10 then toString ip ++ ".0" ++ toString fr
  else toString ip ++ "." ++ toString fr

/-- The summary line printed by `main` (autograder-assessment-2.py line
364): `f"Score: {score}/100  (Passed: {passed}, Failed: {failed},
Errors: {errored})"`, with `passed = total_tests - failed - errored`. -/
def summaryLine (evs : List TEvent) : String :=
  "Score: " ++
    formatScore (autograder_score evs.length (countFailed evs) (countErrored evs)) ++
    "/100  (Passed: " ++
    toString ((evs.length : ℤ) - countFailed evs - countErrored evs) ++
    ", Failed: " ++ toString ((countFailed evs : ℤ)) ++
    ", Errors: " ++ toString ((countErrored evs : ℤ)) ++ ")"

/-- C5 counterexample: an errored check is recorded with the status
literal `"error"`, not `"errored"` as the claim's status set
`passed|failed|errored` requires. -/
theorem report_status_counterexample :
    (detailsOf [TEvent.err "CMDecoratorGrader.test_01_file_opener_cm_class" "boom"]).map
      Detail.status = ["error"] ∧
    ("error" : String) ≠ "errored" ∧
    ("error" : String) ≠ "passed" ∧
    ("error" : String) ≠ "failed" := by
  refine ⟨rfl, by decide, by decide, by decide⟩

/-- C5 (amended): every per-check record's status is one of
`passed|failed|error` (errors use the literal `"error"`), and the summary
line is exactly `Score: <num>/100  (Passed: <p>, Failed: <f>,
Errors: <e>)` where `p`, `f`, `e` are the counts of passed, failed and
errored checks. -/
theorem report_spec (evs : List TEvent) :
    (∀ d ∈ detailsOf evs,
      d.status = "passed" ∨ d.status = "failed" ∨ d.status = "error") ∧
    summaryLine evs =
      "Score: " ++
        formatScore (autograder_score evs.length (countFailed evs) (countErrored evs)) ++
        "/100  (Passed: " ++ toString ((countPassed evs : ℤ)) ++
        ", Failed: " ++ toString ((countFailed evs : ℤ)) ++
        ", Errors: " ++ toString ((countErrored evs : ℤ)) ++ ")" := by
  constructor
  · intro d hd
    obtain ⟨e, _, rfl⟩ := List.mem_map.mp hd
    cases e with
    | success i => exact Or.inl rfl
    | failure i m => exact Or.inr (Or.inl rfl)
    | err i m => exact Or.inr (Or.inr rfl)
  · unfold summaryLine
    have hp : ((evs.length : ℤ) - countFailed evs - countErrored evs) =
        ((countPassed evs : ℤ)) := by
      have := counts_partition evs
      omega
    rw [hp]

/-- C5 witness: the amended statement at a concrete two-check run — the
errored check's record has an allowed status. -/
theorem report_spec_witness :
    (detailOf (TEvent.err "t2" "boom")).status = "passed" ∨
    (detailOf (TEvent.err "t2" "boom")).status = "failed" ∨
    (detailOf (TEvent.err "t2" "boom")).status = "error" :=
  (report_spec [TEvent.success "t1", TEvent.err "t2" "boom"]).1
    (detailOf (TEvent.err "t2" "boom")) (by simp [detailsOf])

/-- The diagnostic of the `ImportError` raised when the default module
cannot be imported (autograder-assessment-2.py lines 53-55). -/
def defaultImportMsg : String :=
  "Could not import module 'submission'. Pass an explicit module name as CLI arg, or provide submission.py."

/-- Substring test (on the underlying character lists). -/
def containsSub (hay needle : String) : Bool :=
  (List.range (hay.toList.length + 1)).any fun i =>
    List.isPrefixOf needle.toList (hay.toList.drop i)

/-- The default branch of `import_submission`:
`importlib.import_module("submission")`, wrapping any failure in an
`ImportError` carrying `defaultImportMsg`.  `resolve` embeds the import
system: the module it yields for a name, or the import error text it
raises. -/
def importDefault (resolve : String → Except String M) : Except String M :=
  match resolve "submission" with
  | .ok mod => .ok mod
  | .error _ => .error defaultImportMsg

/-- `import_submission(module_name)` (autograder-assessment-2.py lines
46-55): a truthy (non-empty) explicit name is imported directly — any
failure propagates the import system's own error unchanged — while `None`
or an empty name falls through to the guarded default import. -/
def import_submission (resolve : String → Except String M)
    (module_name : Option String) : Except String M :=
  match module_name with
  | some name => if name.isEmpty then importDefault resolve else resolve name
  | none => importDefault resolve

/-- The grading run: `CMDecoratorGrader.setUpClass` imports the candidate
module and `main` then runs the battery and reports the outcomes.
Modelled from the spec: the unittest dispatch that skips every test when
`setUpClass` raises ("no Checks can proceed without a loaded module") is
standard-library behaviour, not code of this repository — an import
failure means no check executes, and nothing else stops the battery. -/
def runHarness (resolve : String → Except String M) (modName : Option String)
    (battery : M → List TEvent) : Except String (List Detail) :=
  match import_submission resolve modName with
  | .error e => .error e
  | .ok m => .ok (detailsOf (battery m))

/-- C6 counterexample: a failing explicitly-named import propagates the
underlying diagnostic unchanged — for module name `mysub` the
message names neither the default identifier `submission` nor the
override mechanism, refuting the claim that every load failure produces
the enriched diagnostic. -/
theorem import_submission_counterexample :
    import_submission (M := Unit) (fun n => Except.error ("No module named " ++ n))
      (some "mysub") = Except.error "No module named mysub" ∧
    containsSub "No module named mysub" "submission" = false ∧
    containsSub "No module named mysub" "explicit" = false := by
  refine ⟨rfl, by decide, by decide⟩

/-- C6 (amended): a failure to resolve the *default* module raises the
ImportError whose diagnostic names `'submission'` and the override
mechanism (`explicit module name`); a failure to resolve an explicitly
named module propagates the underlying import error unchanged; an import
failure is the only condition that prevents the battery from running —
whenever the import succeeds, every check executes and is reported. -/
theorem import_submission_spec (M : Type) (resolve : String → Except String M)
    (modName : Option String) (battery : M → List TEvent) :
    ((modName = none ∨ modName = some "") →
      ∀ e, resolve "submission" = .error e →
        import_submission resolve modName = .error defaultImportMsg ∧
        containsSub defaultImportMsg "'submission'" = true ∧
        containsSub defaultImportMsg "explicit module name" = true) ∧
    (∀ name e, modName = some name → name.isEmpty = false →
      resolve name = .error e → import_submission resolve modName = .error e) ∧
    (∀ e, import_submission resolve modName = .error e →
      runHarness resolve modName battery = .error e) ∧
    (∀ m, import_submission resolve modName = .ok m →
      runHarness resolve modName battery = .ok (detailsOf (battery m))) := by
  refine ⟨?_, ?_, ?_, ?_⟩
  · rintro (rfl | rfl) e he
    · exact ⟨by simp [import_submission, importDefault, he], by decide, by decide⟩
    · exact ⟨by simp [import_submission, importDefault, String.isEmpty, he], by decide, by decide⟩
  · rintro name e rfl hne he
    simp [import_submission, hne, he]
  · intro e he
    unfold runHarness
    rw [he]
  · intro m hm
    unfold runHarness
    rw [hm]

/-- C6 witness: with an import system that fails for every name, requesting
the default module yields exactly the enriched diagnostic, and the battery
does not run. -/
theorem import_submission_spec_witness :
    import_submission (M := Unit) (fun n => Except.error ("No module named " ++ n))
      none = Except.error defaultImportMsg ∧
    runHarness (M := Unit) (fun n => Except.error ("No module named " ++ n))
      none (fun _ => []) = Except.error defaultImportMsg := by
  have h := import_submission_spec Unit (fun n => Except.error ("No module named " ++ n))
    none (fun _ => [])
  have h1 := (h.1 (Or.inl rfl) "No module named submission" rfl).1
  exact ⟨h1, h.2.2.1 defaultImportMsg h1⟩

/-- One log record emitted by `db_guardrail`'s logger: the retry
`log.info`, the exhaustion `log.exception`, the non-retriable
`log.exception`, or the per-attempt `elapsed_ms` telemetry emitted in the
`finally` clause. -/
inductive GLog where
  | retryInfo (attempt : Nat) (fname : String) (msg : String)
  | opFinal (fname : String) (attempt : Nat) (msg : String)
  | exnLog (fname : String) (msg : String)
  | elapsed (fname : String)
  deriving DecidableEq, Repr

/-- Whether a log record is the elapsed-time telemetry. -/
def GLog.isElapsed : GLog → Bool
  | .elapsed _ => true
  | _ => false

/-- The `while True` loop of `db_guardrail._wrapped` (submission.py lines
310-333), with the same `rem = (retries - attempt).toNat` bookkeeping as
`retryGo`.  Per iteration: a success returns (the `finally` clause logs
one `elapsed` record); a transient error with the budget exhausted logs
the exception and the `finally` telemetry, then re-raises; a transient
error with attempts left logs the retry notice, sleeps
`backoff * 2^(attempt-1)`, logs the `finally` telemetry and loops; any
other exception logs it plus the telemetry and re-raises. -/
def dbGuardGo (f : Nat → Outcome α) (fname : String) (backoff : ℚ) :
    Nat → Nat → List ℚ → List GLog → RunResult α × List GLog
  | rem, attempt, sleeps, log =>
    match f attempt with
    | .ok v => (.value v attempt sleeps, log ++ [.elapsed fname])
    | .exn m => (.exnRaised m attempt sleeps, log ++ [.exnLog fname m, .elapsed fname])
    | .opErr m =>
      match rem with
      | 0 => (.opRaised m attempt sleeps, log ++ [.opFinal fname attempt m, .elapsed fname])
      | rem' + 1 =>
          dbGuardGo f fname backoff rem' (attempt + 1)
            (sleeps ++ [backoff * 2 ^ (attempt - 1)])
            (log ++ [.retryInfo attempt fname m, .elapsed fname])

/-- A Python callable with its `__name__` and its behaviour per attempt. -/
structure PyFunc (α : Type) where
  name : String
  call : Nat → Outcome α

/-- The wrapper returned by `db_guardrail`: `functools.wraps` copies the
wrapped callable's `__name__`; calling it runs the guard loop and yields
the result together with everything logged. -/
structure Guarded (α : Type) where
  name : String
  run : RunResult α × List GLog

/-- `db_guardrail(logger=…, retries=…, backoff=…)` applied to a callable
(submission.py lines 292-338). -/
def db_guardrail (retries : Int) (backoff : ℚ) (f : PyFunc α) : Guarded α :=
  ⟨f.name, dbGuardGo f.call f.name backoff (retries - 1).toNat 1 [] []⟩

/-- Unfolding lemma for `dbGuardGo`. -/
theorem dbGuardGo_eq (f : Nat → Outcome α) (fname : String) (backoff : ℚ)
    (rem attempt : Nat) (sleeps : List ℚ) (log : List GLog) :
    dbGuardGo f fname backoff rem attempt sleeps log =
      match f attempt with
      | .ok v => (.value v attempt sleeps, log ++ [.elapsed fname])
      | .exn m => (.exnRaised m attempt sleeps, log ++ [.exnLog fname m, .elapsed fname])
      | .opErr m =>
        match rem with
        | 0 => (.opRaised m attempt sleeps, log ++ [.opFinal fname attempt m, .elapsed fname])
        | rem' + 1 =>
            dbGuardGo f fname backoff rem' (attempt + 1)
              (sleeps ++ [backoff * 2 ^ (attempt - 1)])
              (log ++ [.retryInfo attempt fname m, .elapsed fname]) := by
  rw [dbGuardGo]

/-- A guard run that fails transiently on `k` attempts and then succeeds
returns the success value after attempt `attempt + k` and has appended
exactly one telemetry record per attempt (`k + 1` of them). -/
theorem dbGuardGo_success (f : Nat → Outcome α) (fname : String) (backoff : ℚ)
    (v : α) :
    ∀ (k rem attempt : Nat) (sleeps : List ℚ) (log : List GLog),
      (∀ j, j < k → ∃ m, f (attempt + j) = .opErr m) →
      f (attempt + k) = .ok v → k ≤ rem →
      (dbGuardGo f fname backoff rem attempt sleeps log).1.valueOf = some v ∧
      (dbGuardGo f fname backoff rem attempt sleeps log).1.calls = attempt + k ∧
      (dbGuardGo f fname backoff rem attempt sleeps log).2.countP GLog.isElapsed =
        log.countP GLog.isElapsed + (k + 1) := by
  intro k
  induction k with
  | zero =>
    intro rem attempt sleeps log _ hok _
    rw [dbGuardGo_eq]
    simp only [Nat.add_zero] at hok
    rw [hok]
    refine ⟨rfl, rfl, ?_⟩
    simp [List.countP_append, List.countP_cons, GLog.isElapsed]
  | succ k ih =>
    intro rem attempt sleeps log hfail hok hle
    obtain ⟨m, hm⟩ := hfail 0 (Nat.succ_pos k)
    simp only [Nat.add_zero] at hm
    obtain ⟨rem', rfl⟩ : ∃ rem', rem = rem' + 1 := by
      cases rem with
      | zero => exact absurd hle (by omega)
      | succ r => exact ⟨r, rfl⟩
    rw [dbGuardGo_eq, hm]
    have hfail' : ∀ j, j < k → ∃ m', f (attempt + 1 + j) = .opErr m' := by
      intro j hj
      have := hfail (j + 1) (by omega)
      simpa [Nat.add_assoc, Nat.add_comm 1 j] using this
    have hok' : f (attempt + 1 + k) = .ok v := by
      simpa [Nat.add_assoc, Nat.add_comm 1 k] using hok
    have h := ih rem' (attempt + 1) (sleeps ++ [backoff * 2 ^ (attempt - 1)])
      (log ++ [.retryInfo attempt fname m, .elapsed fname]) hfail' hok' (by omega)
    refine ⟨h.1, by rw [h.2.1]; omega, ?_⟩
    rw [h.2.2]
    simp [List.countP_append, List.countP_cons, GLog.isElapsed]
    omega

/-- A guard run that fails transiently on every attempt exhausts the budget
after attempt `attempt + rem`, re-raises the transient error, and has
appended exactly one telemetry record per attempt (`rem + 1` of them). -/
theorem dbGuardGo_exhaust (f : Nat → Outcome α) (fname : String) (backoff : ℚ) :
    ∀ (rem attempt : Nat) (sleeps : List ℚ) (log : List GLog),
      (∀ j, j ≤ rem → ∃ m, f (attempt + j) = .opErr m) →
      (dbGuardGo f fname backoff rem attempt sleeps log).1.isOpRaised = true ∧
      (dbGuardGo f fname backoff rem attempt sleeps log).1.calls = attempt + rem ∧
      (dbGuardGo f fname backoff rem attempt sleeps log).2.countP GLog.isElapsed =
        log.countP GLog.isElapsed + (rem + 1) := by
  intro rem
  induction rem with
  | zero =>
    intro attempt sleeps log hfail
    obtain ⟨m, hm⟩ := hfail 0 (Nat.le_refl 0)
    simp only [Nat.add_zero] at hm
    rw [dbGuardGo_eq, hm]
    refine ⟨rfl, rfl, ?_⟩
    simp [List.countP_append, List.countP_cons, GLog.isElapsed]
  | succ rem' ih =>
    intro attempt sleeps log hfail
    obtain ⟨m, hm⟩ := hfail 0 (Nat.zero_le _)
    simp only [Nat.add_zero] at hm
    rw [dbGuardGo_eq, hm]
    have hfail' : ∀ j, j ≤ rem' → ∃ m', f (attempt + 1 + j) = .opErr m' := by
      intro j hj
      have := hfail (j + 1) (by omega)
      simpa [Nat.add_assoc, Nat.add_comm 1 j] using this
    have h := ih (attempt + 1) (sleeps ++ [backoff * 2 ^ (attempt - 1)])
      (log ++ [.retryInfo attempt fname m, .elapsed fname]) hfail'
    refine ⟨h.1, by rw [h.2.1]; omega, ?_⟩
    rw [h.2.2]
    simp [List.countP_append, List.countP_cons, GLog.isElapsed]
    omega

/-- C7: for a callable that fails transiently `k` times then succeeds,
`db_guardrail` preserves the callable's name; with budget
`retries ≥ k+1` it returns the success value after `k+1` attempts and the
log holds exactly one elapsed-time telemetry record per attempt (`k+1`
records, not one per logical call); with `retries = k` (for `k ≥ 1`) it
re-raises the terminal transient error after `k` attempts with exactly
`k` telemetry records. -/
theorem db_guardrail_spec (retries : Int) (backoff : ℚ) (f : PyFunc α)
    (v : α) (k : Nat)
    (hfail : ∀ i, 1 ≤ i → i ≤ k → ∃ m, f.call i = .opErr m)
    (hok : f.call (k + 1) = .ok v) :
    (db_guardrail retries backoff f).name = f.name ∧
    ((k : Int) + 1 ≤ retries →
      (db_guardrail retries backoff f).run.1.valueOf = some v ∧
      (db_guardrail retries backoff f).run.1.calls = k + 1 ∧
      (db_guardrail retries backoff f).run.2.countP GLog.isElapsed = k + 1) ∧
    (retries = (k : Int) → 1 ≤ k →
      (db_guardrail retries backoff f).run.1.isOpRaised = true ∧
      (db_guardrail retries backoff f).run.1.calls = k ∧
      (db_guardrail retries backoff f).run.2.countP GLog.isElapsed = k) := by
  refine ⟨rfl, ?_, ?_⟩
  · intro hret
    have hfail' : ∀ j, j < k → ∃ m, f.call (1 + j) = .opErr m := by
      intro j hj
      exact hfail (1 + j) (by omega) (by omega)
    have hok' : f.call (1 + k) = .ok v := by rwa [Nat.add_comm 1 k]
    have hle : k ≤ (retries - 1).toNat := by omega
    have h := dbGuardGo_success f.call f.name backoff v k (retries - 1).toNat 1 [] []
      hfail' hok' hle
    unfold db_guardrail
    refine ⟨h.1, by rw [h.2.1]; omega, by rw [h.2.2]; simp⟩
  · intro hret hk
    have hfail' : ∀ j, j ≤ k - 1 → ∃ m, f.call (1 + j) = .opErr m := by
      intro j hj
      exact hfail (1 + j) (by omega) (by omega)
    have hrem : (retries - 1).toNat = k - 1 := by omega
    have h := dbGuardGo_exhaust f.call f.name backoff (k - 1) 1 [] [] hfail'
    unfold db_guardrail
    rw [hrem]
    refine ⟨h.1, by rw [h.2.1]; omega, by rw [h.2.2]; simp; omega⟩

/-- C7 witness: the autograder's `test_11` scenario — `sometimes_ok` fails
once with the transient error then returns "ok", guarded with
`retries = 2` — keeps its name, returns "ok" after 2 attempts, and the log
holds exactly 2 telemetry records. -/
theorem db_guardrail_spec_witness :
    (db_guardrail 2 (1/1000)
      ⟨"sometimes_ok", fun n => if n = 1 then Outcome.opErr "locked"
                               else Outcome.ok "ok"⟩).name = "sometimes_ok" ∧
    (db_guardrail 2 (1/1000)
      ⟨"sometimes_ok", fun n => if n = 1 then Outcome.opErr "locked"
                               else Outcome.ok "ok"⟩).run.1.valueOf = some "ok" ∧
    (db_guardrail 2 (1/1000)
      ⟨"sometimes_ok", fun n => if n = 1 then Outcome.opErr "locked"
                               else Outcome.ok "ok"⟩).run.1.calls = 2 ∧
    (db_guardrail 2 (1/1000)
      ⟨"sometimes_ok", fun n => if n = 1 then Outcome.opErr "locked"
                               else Outcome.ok "ok"⟩).run.2.countP GLog.isElapsed = 2 := by
  have h := db_guardrail_spec 2 (1/1000)
    ⟨"sometimes_ok", fun n => if n = 1 then Outcome.opErr "locked"
                             else Outcome.ok "ok"⟩ "ok" 1
    (by
      intro i h1 h2
      refine ⟨"locked", ?_⟩
      have : i = 1 := by omega
      simp [this])
    (by norm_num)
  have h2 := h.2.1 (by norm_num)
  exact ⟨h.1, h2.1, h2.2.1, h2.2.2⟩

end Assessment2
